import Mathlib

/-!
Verification of the kurun reverse-HTTP-tunnel core (banzaicloud/kurun).

This file shallowly embeds the parts of the source relevant to the frozen
claims: the worker-group shutdown primitive (tunnel/pkg/workplace/workplace.go),
the tunnel server's request lifecycle, wait queue, reader and writer loops
(tunnel/websocket server file), the tunnel client's dispatcher
(tunnel/websocket/client.go), and the frame codec.

Go channels are modelled explicitly: a channel close is a Boolean flag, and
closing an already-closed channel sets a `panicked` flag (in Go this panics).
Concurrency is modelled by explicit operation traces: each mutex-protected or
select-chosen step of the source becomes one atomic transition, and theorems
quantify over all valid traces.
-/

/-- Go `close(ch)` on a channel represented by its closed flag: closing an
already-closed channel panics, otherwise the channel becomes closed. -/
def closeChan (closed : Bool) (panicked : Bool) : Bool × Bool :=
  if closed then (closed, true) else (true, panicked)

/-! ## Worker group (tunnel/pkg/workplace/workplace.go)

State of a `Workplace` after `init` has run: the `closing` and `closed`
channels (as closed-flags), the accumulated error (`emperror errors.Append`
is modelled as appending to a list of messages), and the worker count.
`start` and `done` run entirely under the workplace mutex, so each is one
atomic step. `Close`, however, first checks `open(w.closed)` BEFORE
acquiring the mutex and only then locks and runs its body; a `Close` call is
therefore modelled as two atomic steps — its pre-mutex guard (`closeBegin`)
and its locked section (`closeFinish`) — and `pendingCloses` holds the
error payloads of the calls that have passed the guard but not yet acquired
the mutex. -/

structure Workplace where
  closingClosed : Bool
  closedClosed : Bool
  err : List String
  workers : Nat
  pendingCloses : List (Option String)
  panicked : Bool
deriving Repr, DecidableEq

def wpInit : Workplace :=
  { closingClosed := false, closedClosed := false, err := [], workers := 0,
    pendingCloses := [], panicked := false }

/-- `errors.Append(err, e)`: appends the error when non-nil. -/
def errAppend (acc : List String) (e : Option String) : List String :=
  acc ++ e.toList

/-- The pre-mutex part of `Workplace.Close` (workplace.go lines 21-24):
`if !open(w.closed) { return }`. When `closed` is still open the call
proceeds and its locked section becomes pending. -/
def Workplace.closeBeginOp (w : Workplace) (e : Option String) : Workplace :=
  if w.closedClosed then w
  else { w with pendingCloses := w.pendingCloses ++ [e] }

/-- The locked section of `Workplace.Close` (workplace.go lines 25-30):
append the error, then close `closing` if it is still open. Note the source
does not re-check `closed` under the mutex. -/
def Workplace.closeLockedOp (w : Workplace) (e : Option String) : Workplace :=
  let w1 := { w with err := errAppend w.err e }
  if w1.closingClosed then w1
  else
    let cp := closeChan w1.closingClosed w1.panicked
    { w1 with closingClosed := cp.1, panicked := cp.2 }

/-- A pending `Close` call acquires the mutex and runs its locked section. -/
def Workplace.closeFinishOp (w : Workplace) (i : Nat) : Workplace :=
  match w.pendingCloses[i]? with
  | none => w
  | some e => Workplace.closeLockedOp { w with pendingCloses := w.pendingCloses.eraseIdx i } e

/-- `Workplace.start` (workplace.go lines 86-95), fully mutex-protected:
refuse when `closed` is closed, otherwise increment the worker count.
Returns whether the task may run. -/
def Workplace.startOp (w : Workplace) : Workplace × Bool :=
  if w.closedClosed then (w, false)
  else ({ w with workers := w.workers + 1 }, true)

/-- `Workplace.done` (workplace.go lines 69-77), fully mutex-protected:
decrement the worker count; when it reaches zero with `closing` closed and
`closed` still open, close `closed`. -/
def Workplace.doneOp (w : Workplace) : Workplace :=
  let w1 := { w with workers := w.workers - 1 }
  if w1.workers = 0 ∧ w1.closingClosed = true ∧ w1.closedClosed = false then
    let cp := closeChan w1.closedClosed w1.panicked
    { w1 with closedClosed := cp.1, panicked := cp.2 }
  else w1

/-- The atomic operations a workplace can undergo: the pre-mutex guard of a
`Close(e)` call, the locked section of the i-th pending `Close` call, the
`start` performed at the beginning of `Do`, and the deferred `done`
performed when a task started by `Do` returns. -/
inductive WpOp where
  | closeBegin (e : Option String)
  | closeFinish (i : Nat)
  | start
  | done
deriving Repr, DecidableEq

def wpStep (w : Workplace) (op : WpOp) : Workplace :=
  match op with
  | .closeBegin e => w.closeBeginOp e
  | .closeFinish i => w.closeFinishOp i
  | .start => (w.startOp).1
  | .done => w.doneOp

/-- Trace validity: `done` is only ever executed by a task that `Do`
successfully started, so it can occur only while the worker count is
positive; a locked close section can only run for a call that has passed
its guard. -/
def wpGuard (w : Workplace) (op : WpOp) : Bool :=
  match op with
  | .done => w.workers != 0
  | .closeFinish i => (w.pendingCloses[i]?).isSome
  | _ => true

def wpRun (w : Workplace) : List WpOp → Option Workplace
  | [] => some w
  | op :: ops => if wpGuard w op then wpRun (wpStep w op) ops else none

/-- Invariant preserved by every workplace operation: no channel is ever
closed twice, and `closed` never closes while `closing` is open. -/
def wpInv (w : Workplace) : Prop :=
  w.panicked = false ∧ (w.closedClosed = true → w.closingClosed = true)

theorem wpInv_step (w : Workplace) (op : WpOp) (h : wpInv w) : wpInv (wpStep w op) := by
  obtain ⟨hp, hc⟩ := h
  cases op with
  | closeBegin e =>
    by_cases h1 : w.closedClosed = true
    · simp [wpStep, Workplace.closeBeginOp, h1, wpInv, hp, hc h1]
    · simp only [Bool.not_eq_true] at h1
      simp [wpStep, Workplace.closeBeginOp, h1, wpInv, hp]
  | closeFinish i =>
    cases hg : w.pendingCloses[i]? with
    | none =>
      simp only [wpStep, Workplace.closeFinishOp, hg]
      exact ⟨hp, hc⟩
    | some e =>
      by_cases h2 : w.closingClosed = true
      · simp [wpStep, Workplace.closeFinishOp, hg, Workplace.closeLockedOp, h2, wpInv, hp]
      · simp only [Bool.not_eq_true] at h2
        have h3 : w.closedClosed = false := by
          by_contra hcon
          simp only [Bool.not_eq_false] at hcon
          rw [hc hcon] at h2
          exact absurd h2 (by simp)
        simp [wpStep, Workplace.closeFinishOp, hg, Workplace.closeLockedOp, h2, h3,
          closeChan, wpInv, hp]
  | start =>
    by_cases h1 : w.closedClosed = true
    · simp [wpStep, Workplace.startOp, h1, wpInv, hp, hc h1]
    · simp only [Bool.not_eq_true] at h1
      simp [wpStep, Workplace.startOp, h1, wpInv, hp]
  | done =>
    by_cases h1 : w.workers - 1 = 0 ∧ w.closingClosed = true ∧ w.closedClosed = false
    · simp [wpStep, Workplace.doneOp, h1, closeChan, h1.2.2, wpInv, hp, h1.2.1]
    · by_cases h2 : w.closedClosed = true
      · simp [wpStep, Workplace.doneOp, h1, wpInv, hp, hc h2, h2]
      · simp only [Bool.not_eq_true] at h2
        by_cases h3 : w.workers - 1 = 0 ∧ w.closingClosed = true
        · simp [wpStep, Workplace.doneOp, h2, h3.1, h3.2, closeChan, wpInv, hp]
        · simp [wpStep, Workplace.doneOp, h2, h3, wpInv, hp]

/-- Both channel close-at-most-once properties and the closed-implies-closing
ordering hold along every valid trace, even with `Close` split into its
pre-mutex guard and its locked section: the channel closes themselves are
guarded under the mutex. -/
theorem wpRun_inv (ops : List WpOp) (w w2 : Workplace) (h : wpInv w)
    (hrun : wpRun w ops = some w2) : wpInv w2 := by
  induction ops generalizing w with
  | nil =>
    simp only [wpRun, Option.some.injEq] at hrun
    exact hrun ▸ h
  | cons op ops ih =>
    simp only [wpRun] at hrun
    split at hrun
    · exact ih (wpStep w op) (wpInv_step w op h) hrun
    · exact absurd hrun (by simp)

/-- C8: the err-stability conjunct fails on the code. In the trace below a
task starts, a first `Close("e1")` runs to completion (closing `Closing`),
a second `Close("e2")` passes its pre-mutex `open(w.closed)` guard, then the
task's deferred `done` closes `Closed` — at which point `Wait()` returns
with `err = ["e1"]` (reading `err` without the mutex, per the source
comment "it cannot be changed anymore") — and only then does the stalled
second `Close` acquire the mutex and append "e2": the error has changed
after `Wait()` returned. The first evaluation shows the state right after
`Closed` closes; the second shows the same trace after the pending locked
section runs. -/
theorem C8_err_changes_after_wait :
    (wpRun wpInit [WpOp.start, WpOp.closeBegin (some "e1"), WpOp.closeFinish 0,
        WpOp.closeBegin (some "e2"), WpOp.done]).map
      (fun w => (w.closedClosed, w.err)) = some (true, ["e1"]) ∧
    (wpRun wpInit [WpOp.start, WpOp.closeBegin (some "e1"), WpOp.closeFinish 0,
        WpOp.closeBegin (some "e2"), WpOp.done, WpOp.closeFinish 0]).map
      (fun w => (w.closedClosed, w.err)) = some (true, ["e1", "e2"]) := by
  decide

/-- C4 counterexample: a complete `Close` call (guard plus locked section) on
a workplace with zero registered tasks closes `Closing` but leaves `Closed`
open — contrary to the claim that `Closed` closes as soon as `Closing` does
when no task is registered. Since `close(closed)` happens only inside
`done`, and no task exists to run `done`, `Wait()` would block forever in
this state. -/
theorem C4_zero_tasks_counterexample :
    (wpRun wpInit [WpOp.closeBegin none, WpOp.closeFinish 0]).map
      (fun w => (w.closingClosed, w.closedClosed, w.workers)) = some (true, false, 0) := by
  decide

/-- C4 amended: the `Closed` channel closes exactly when a task's deferred
`done` brings the worker count to zero while `Closing` is already closed. In
particular, once `Close` has been called and at least one task is still
running, `Closed` is closed when the last such task returns; but a `Close`
with zero registered tasks does not close `Closed` (no pending `done`
exists), so `Wait()` blocks until some later task starts and finishes. -/
theorem C4_closed_after_last_done (w : Workplace) (h1 : w.closingClosed = true)
    (h2 : w.workers = 1) : (wpStep w WpOp.done).closedClosed = true := by
  by_cases hcc : w.closedClosed = true
  · simp [wpStep, Workplace.doneOp, hcc, h2, h1]
  · simp only [Bool.not_eq_true] at hcc
    simp [wpStep, Workplace.doneOp, hcc, h2, h1, closeChan]

theorem C4_closed_after_last_done_witness :
    (wpStep (Workplace.mk true false [] 1 [] false) WpOp.done).closedClosed = true :=
  C4_closed_after_last_done (Workplace.mk true false [] 1 [] false) rfl rfl

/-! ## Pending-request sink and the per-request lifecycle (tunnel server)

The response sink is the buffered channel of capacity 1 created by
`Server.queueRequest`. A Go send on a closed channel and a double close both
panic, which the model records in `panicked`. -/

structure Sink where
  sends : Nat
  closed : Bool
  panicked : Bool
deriving Repr, DecidableEq

def sinkInit : Sink := { sends := 0, closed := false, panicked := false }

def Sink.sendOp (s : Sink) : Sink :=
  if s.closed then { s with panicked := true } else { s with sends := s.sends + 1 }

def Sink.closeOp (s : Sink) : Sink :=
  if s.closed then { s with panicked := true } else { s with closed := true }

/-- `respondToRequest` (server file, lines 672-683): send one
`responseAndError` on the item's response channel, then close the channel.
(The nil-channel guard never fires for items built by `queueRequest`, which
always sets a fresh channel.) -/
def respondToRequest (s : Sink) : Sink :=
  Sink.closeOp (Sink.sendOp s)

/-- Phases of a single pending request submitted via `Server.RoundTrip`.
Each phase transition below is one atomic step of the source: the wait-queue
operations are mutex-protected, and whoever removes the entry from the queue
is the only goroutine holding the item, so its subsequent
`respondToRequest` can be fused with the removal. -/
inductive RPhase where
  | entered
  | pushed
  | sent
  | finStop
  | finCtx
  | finReader
  | dropStop
  | dropCtx
deriving Repr, DecidableEq

structure ReqState where
  phase : RPhase
  inQueue : Bool
  sink : Sink
deriving Repr, DecidableEq

def reqInit : ReqState := { phase := RPhase.entered, inQueue := false, sink := sinkInit }

/-- The interleaving choices of the goroutines touching one pending request:
`push` is `queueRequest`'s `pushItem`; `qstop`, `qctx` and `qsend` are the
three branches of `queueRequest`'s select (stop channel closed, request
context done, send on `requestCh` respectively — the first two drop the
entry and respond); `rpop` is the reader loop popping the matching response
frame and responding; `wstop` and `wctx` are the stop and context branches
of `RoundTrip`'s outer select, which run `cancelRequest` (a bare
`dropItem`); `lateFrame` is a response frame arriving for an id that has
already been dropped. -/
inductive RAct where
  | push
  | qstop
  | qctx
  | qsend
  | rpop
  | wstop
  | wctx
  | lateFrame
deriving Repr, DecidableEq

def reqStep (s : ReqState) (a : RAct) : Option ReqState :=
  match s.phase, a with
  | RPhase.entered, RAct.push => some ⟨RPhase.pushed, true, s.sink⟩
  | RPhase.pushed, RAct.qstop => some ⟨RPhase.finStop, false, respondToRequest s.sink⟩
  | RPhase.pushed, RAct.qctx => some ⟨RPhase.finCtx, false, respondToRequest s.sink⟩
  | RPhase.pushed, RAct.qsend => some ⟨RPhase.sent, s.inQueue, s.sink⟩
  | RPhase.sent, RAct.rpop =>
      if s.inQueue then some ⟨RPhase.finReader, false, respondToRequest s.sink⟩ else none
  | RPhase.sent, RAct.wstop => some ⟨RPhase.dropStop, false, s.sink⟩
  | RPhase.sent, RAct.wctx => some ⟨RPhase.dropCtx, false, s.sink⟩
  | RPhase.finReader, RAct.wstop => some ⟨RPhase.finReader, false, s.sink⟩
  | RPhase.finReader, RAct.wctx => some ⟨RPhase.finReader, false, s.sink⟩
  | RPhase.finStop, RAct.wstop => some ⟨RPhase.finStop, false, s.sink⟩
  | RPhase.finStop, RAct.wctx => some ⟨RPhase.finStop, false, s.sink⟩
  | RPhase.finCtx, RAct.wstop => some ⟨RPhase.finCtx, false, s.sink⟩
  | RPhase.finCtx, RAct.wctx => some ⟨RPhase.finCtx, false, s.sink⟩
  | RPhase.dropStop, RAct.lateFrame => some ⟨RPhase.dropStop, s.inQueue, s.sink⟩
  | RPhase.dropCtx, RAct.lateFrame => some ⟨RPhase.dropCtx, s.inQueue, s.sink⟩
  | _, _ => none

def runReq : ReqState → List RAct → Option ReqState
  | s, [] => some s
  | s, a :: as =>
    match reqStep s a with
    | none => none
    | some s2 => runReq s2 as

/-- A completion path has fired for the request: response delivered by the
reader, stop signal, or context cancellation. -/
def reqCompleted (s : ReqState) : Bool :=
  match s.phase with
  | RPhase.finStop | RPhase.finCtx | RPhase.finReader | RPhase.dropStop | RPhase.dropCtx => true
  | _ => false

/-- `respondToRequest` has run for the request. -/
def reqResponded (s : ReqState) : Bool :=
  match s.phase with
  | RPhase.finStop | RPhase.finCtx | RPhase.finReader => true
  | _ => false

/-- Exact sink contents as a function of the phase. -/
def sinkSpec (s : ReqState) : Prop :=
  if reqResponded s then s.sink = { sends := 1, closed := true, panicked := false }
  else s.sink = sinkInit

theorem sinkSpec_step (s : ReqState) (a : RAct) (s2 : ReqState)
    (hstep : reqStep s a = some s2) (h : sinkSpec s) : sinkSpec s2 := by
  cases hp : s.phase <;> cases a <;>
    simp [reqStep, hp] at hstep <;>
    simp [sinkSpec, reqResponded, hp] at h <;>
    first
      | (subst hstep; simp [sinkSpec, reqResponded, h, respondToRequest, sinkInit,
          Sink.sendOp, Sink.closeOp])
      | (obtain ⟨hq, heq⟩ := hstep
         subst heq
         simp [sinkSpec, reqResponded, h, respondToRequest, sinkInit, Sink.sendOp, Sink.closeOp])

theorem runReq_sinkSpec (acts : List RAct) (s s2 : ReqState) (h : sinkSpec s)
    (hrun : runReq s acts = some s2) : sinkSpec s2 := by
  induction acts generalizing s with
  | nil =>
    simp only [runReq, Option.some.injEq] at hrun
    exact hrun ▸ h
  | cons a as ih =>
    simp only [runReq] at hrun
    cases hstep : reqStep s a with
    | none => rw [hstep] at hrun; exact absurd hrun (by simp)
    | some s1 =>
      rw [hstep] at hrun
      exact ih s1 (sinkSpec_step s a s1 hstep h) hrun

/-- C1 counterexample: the interleaving push, send-on-requestCh, then the
stop branch of `RoundTrip`'s outer select. A completion path (the server
stop signal) has fired, yet the sink received zero values and was never
closed — `cancelRequest` only drops the wait-queue entry. This refutes the
claim that every completion path delivers exactly one value and closes the
sink. -/
theorem C1_exactly_once_counterexample :
    (runReq reqInit [RAct.push, RAct.qsend, RAct.wstop]).map
      (fun s => (reqCompleted s, s.sink.sends, s.sink.closed)) = some (true, 0, false) := by
  decide

/-- C1 amended: along every interleaving, the sink receives at most one
value; it is closed exactly when it has received that value (the close
immediately follows the single send inside `respondToRequest`); no send ever
happens after a close and no channel is closed twice (no panic); on the
three responding paths (reader pop, and the stop or context branch inside
`queueRequest`'s select) the sink receives exactly one value and is closed,
while on the paths where `RoundTrip`'s outer select abandons the request
(`cancelRequest`) the sink receives nothing and stays open. -/
theorem C1_at_most_once_delivery (acts : List RAct) (s : ReqState)
    (h : runReq reqInit acts = some s) :
    s.sink.panicked = false ∧ s.sink.sends ≤ 1 ∧
    (s.sink.closed = true ↔ s.sink.sends = 1) ∧
    (reqResponded s = true → s.sink = { sends := 1, closed := true, panicked := false }) ∧
    ((s.phase = RPhase.dropStop ∨ s.phase = RPhase.dropCtx) → s.sink = sinkInit) := by
  have hspec := runReq_sinkSpec acts reqInit s (by simp [sinkSpec, reqResponded, reqInit]) h
  by_cases hr : reqResponded s = true
  · simp only [sinkSpec, hr, if_true] at hspec
    refine ⟨?_, ?_, ?_, fun _ => hspec, fun hd => ?_⟩
    · rw [hspec]
    · rw [hspec]
    · rw [hspec]
      decide
    · rcases hd with hd | hd <;> simp [reqResponded, hd] at hr
  · simp only [sinkSpec, hr, if_false] at hspec
    refine ⟨?_, ?_, ?_, fun hc => absurd hc hr, fun _ => hspec⟩
    · rw [hspec]
      rfl
    · rw [hspec]
      exact Nat.zero_le 1
    · rw [hspec]
      decide

theorem C1_at_most_once_delivery_witness :
    (ReqState.mk RPhase.finReader false (Sink.mk 1 true false)).sink.panicked = false ∧
    (ReqState.mk RPhase.finReader false (Sink.mk 1 true false)).sink.sends ≤ 1 ∧
    ((ReqState.mk RPhase.finReader false (Sink.mk 1 true false)).sink.closed = true ↔
      (ReqState.mk RPhase.finReader false (Sink.mk 1 true false)).sink.sends = 1) ∧
    (reqResponded (ReqState.mk RPhase.finReader false (Sink.mk 1 true false)) = true →
      (ReqState.mk RPhase.finReader false (Sink.mk 1 true false)).sink =
        { sends := 1, closed := true, panicked := false }) ∧
    (((ReqState.mk RPhase.finReader false (Sink.mk 1 true false)).phase = RPhase.dropStop ∨
        (ReqState.mk RPhase.finReader false (Sink.mk 1 true false)).phase = RPhase.dropCtx) →
      (ReqState.mk RPhase.finReader false (Sink.mk 1 true false)).sink = sinkInit) :=
  C1_at_most_once_delivery [RAct.push, RAct.qsend, RAct.rpop]
    (ReqState.mk RPhase.finReader false (Sink.mk 1 true false)) (by decide)

/-! ## Wait queue (server file, lines 685-710) and the request id codec

The wait queue is a mutex-guarded map from request id to item, modelled as
an association list (the mutex makes each operation atomic). `requestID` is
Go `uint64`. -/

abbrev requestID := Nat

def dropItem (q : List (requestID × Sink)) (id : requestID) : List (requestID × Sink) :=
  q.filter (fun p => p.1 != id)

/-- `popItem`: look the id up; when found, remove it and return the item. -/
def popItem (q : List (requestID × Sink)) (id : requestID) :
    Option Sink × List (requestID × Sink) :=
  match q.find? (fun p => p.1 == id) with
  | none => (none, q)
  | some p => (some p.2, dropItem q id)

def pushItem (q : List (requestID × Sink)) (id : requestID) (item : Sink) :
    List (requestID × Sink) :=
  dropItem q id ++ [(id, item)]

/-- Little-endian byte encoding of a value in `k` bytes, as performed by
`binary.Write(w, binary.LittleEndian, reqID)` for `k = 8`. -/
def leEncode : Nat → Nat → List Nat
  | 0, _ => []
  | k + 1, n => n % 256 :: leEncode k (n / 256)

def leDecodeNat : List Nat → Nat
  | [] => 0
  | b :: bs => b + 256 * leDecodeNat bs

/-- `binary.Read(r, binary.LittleEndian, &reqID)`: consume exactly 8 bytes
and decode them little-endian; fail when fewer than 8 bytes are available
(a short read is a deserialization error). -/
def le64decode (bs : List Nat) : Option (Nat × List Nat) :=
  if bs.length < 8 then none
  else some (leDecodeNat (bs.take 8), bs.drop 8)

theorem leEncode_length (k n : Nat) : (leEncode k n).length = k := by
  induction k generalizing n with
  | zero => rfl
  | succ k ih => simp [leEncode, ih]

theorem leDecodeNat_leEncode (k n : Nat) : leDecodeNat (leEncode k n) = n % 256 ^ k := by
  induction k generalizing n with
  | zero => simp [leEncode, leDecodeNat, Nat.mod_one]
  | succ k ih =>
    rw [leEncode, leDecodeNat, ih, Nat.pow_succ]
    rw [Nat.mul_comm (256 ^ k) 256, Nat.mod_mul]

theorem le64decode_leEncode (id : Nat) (hid : id < 2 ^ 64) (rest : List Nat) :
    le64decode (leEncode 8 id ++ rest) = some (id, rest) := by
  have hlen : (leEncode 8 id).length = 8 := leEncode_length 8 id
  have htake : (leEncode 8 id ++ rest).take 8 = leEncode 8 id := by
    rw [← hlen]
    exact List.take_left _ _
  have hdrop : (leEncode 8 id ++ rest).drop 8 = rest := by
    rw [← hlen]
    exact List.drop_left _ _
  have hge : ¬(leEncode 8 id ++ rest).length < 8 := by
    simp [List.length_append, hlen]
  rw [le64decode, if_neg hge, htake, hdrop, leDecodeNat_leEncode]
  have : (256 : Nat) ^ 8 = 2 ^ 64 := by norm_num
  rw [this, Nat.mod_eq_of_lt hid]

/-! ## Reader loop frame handling (server file, lines 563-586) -/

structure ReadStepOut where
  queue : List (requestID × Sink)
  responded : Option (requestID × Sink)
  continues : Bool
deriving Repr, DecidableEq

/-- One binary-message iteration of `conn.readLoop`: decode the request id
from the buffered frame; on a decode failure, log and continue; pop the
pending entry for the id; when absent, log and continue; when present,
run `respondToRequest` on its sink (this covers the read-all-error, the
parse-error and the success path alike — each responds exactly once). -/
def readLoopBinaryStep (q : List (requestID × Sink)) (frame : List Nat) : ReadStepOut :=
  match le64decode frame with
  | none => { queue := q, responded := none, continues := true }
  | some (id, _rest) =>
    match popItem q id with
    | (none, q2) => { queue := q2, responded := none, continues := true }
    | (some sink, q2) => { queue := q2, responded := some (id, respondToRequest sink), continues := true }

/-- C7: when a binary frame's decoded request id has no pending entry in the
wait queue, the frame is discarded: the wait queue is returned unchanged (no
other entry is removed), no sink is signalled, and the reader loop continues
with the next message. -/
theorem C7_unknown_reqid_discarded (q : List (requestID × Sink)) (frame : List Nat)
    (id : Nat) (rest : List Nat)
    (hdec : le64decode frame = some (id, rest))
    (habs : q.find? (fun p => p.1 == id) = none) :
    readLoopBinaryStep q frame = { queue := q, responded := none, continues := true } := by
  simp only [readLoopBinaryStep, hdec, popItem, habs]

theorem C7_unknown_reqid_discarded_witness :
    readLoopBinaryStep [(1, sinkInit)] [2, 0, 0, 0, 0, 0, 0, 0] =
      { queue := [(1, sinkInit)], responded := none, continues := true } :=
  C7_unknown_reqid_discarded [(1, sinkInit)] [2, 0, 0, 0, 0, 0, 0, 0] 2 [] (by decide)
    (by decide)

/-! ## Server state, RoundTrip guards and Shutdown (server file, lines 410-528) -/

structure SrvState where
  stopClosed : Bool
  queue : List (requestID × Sink)
  requestChSends : Nat
deriving Repr, DecidableEq

/-- `Server.stopped` (lines 520-528): whether `stopCh` is closed. -/
def Server.stoppedOp (s : SrvState) : Bool := s.stopClosed

structure RTReturn where
  hasResp : Bool
  err : Option String
deriving Repr, DecidableEq

/-- The guard clauses at the top of `Server.RoundTrip` (lines 421-431): first
the `stopped()` check, then the request-context error check. Returns the
server state together with `some ret` when the call returns early and `none`
when it proceeds to `queueRequest`. `ctxErr` is `req.Context().Err()`. -/
def Server.roundTripEntry (s : SrvState) (ctxErr : Option String) :
    SrvState × Option RTReturn :=
  if Server.stoppedOp s then
    (s, some { hasResp := false, err := some "tunnel server stopped" })
  else
    match ctxErr with
    | some e => (s, some { hasResp := false, err := some e })
    | none => (s, none)

/-- C2: every `RoundTrip` call made after the stop channel has been closed
returns a nil response and the error "tunnel server stopped" immediately:
the returned state is the input state, so no wait-queue entry is created and
nothing is sent on the request channel. -/
theorem C2_roundtrip_after_shutdown (s : SrvState) (ctxErr : Option String)
    (h : s.stopClosed = true) :
    Server.roundTripEntry s ctxErr =
      (s, some { hasResp := false, err := some "tunnel server stopped" }) := by
  simp [Server.roundTripEntry, Server.stoppedOp, h]

theorem C2_roundtrip_after_shutdown_witness :
    Server.roundTripEntry (SrvState.mk true [] 0) none =
      ((SrvState.mk true [] 0), some { hasResp := false, err := some "tunnel server stopped" }) :=
  C2_roundtrip_after_shutdown (SrvState.mk true [] 0) none rfl

/-- C9: a `RoundTrip` call whose request context is already cancelled or
expired, made while the server is not shut down, returns a nil response and
that context error immediately; the returned state is the input state, so
the wait queue and the request channel are untouched. -/
theorem C9_roundtrip_cancelled_context (s : SrvState) (e : String)
    (h : s.stopClosed = false) :
    Server.roundTripEntry s (some e) = (s, some { hasResp := false, err := some e }) := by
  simp [Server.roundTripEntry, Server.stoppedOp, h]

theorem C9_roundtrip_cancelled_context_witness :
    Server.roundTripEntry (SrvState.mk false [] 0) (some "context canceled") =
      ((SrvState.mk false [] 0), some { hasResp := false, err := some "context canceled" }) :=
  C9_roundtrip_cancelled_context (SrvState.mk false [] 0) "context canceled" rfl

/-- Go `close(ch)` with its panic behaviour surfaced as an `Except`. -/
def goCloseChan (alreadyClosed : Bool) : Except String Bool :=
  if alreadyClosed then Except.error "close of closed channel" else Except.ok true

/-- `Server.Shutdown` (lines 480-483): `close(s.stopCh)` with no guard. -/
def Server.shutdownOp (s : SrvState) : Except String SrvState :=
  match goCloseChan s.stopClosed with
  | Except.error e => Except.error e
  | Except.ok _ => Except.ok { s with stopClosed := true }

/-- C10: `Shutdown` is not idempotent: the first call on a server whose stop
channel is open closes it and returns; a second call panics with Go's
"close of closed channel". -/
theorem C10_shutdown_not_idempotent (s : SrvState) (h : s.stopClosed = false) :
    Server.shutdownOp s = Except.ok { s with stopClosed := true } ∧
    Server.shutdownOp { s with stopClosed := true } =
      Except.error "close of closed channel" := by
  constructor
  · simp [Server.shutdownOp, goCloseChan, h]
  · simp [Server.shutdownOp, goCloseChan]

theorem C10_shutdown_not_idempotent_witness :
    Server.shutdownOp (SrvState.mk false [] 0) =
      Except.ok { SrvState.mk false [] 0 with stopClosed := true } ∧
    Server.shutdownOp { SrvState.mk false [] 0 with stopClosed := true } =
      Except.error "close of closed channel" :=
  C10_shutdown_not_idempotent (SrvState.mk false [] 0) rfl

/-! ## Server writer loop (server file, lines 591-654) -/

inductive NetErrKind where
  | temporary
  | fatal
deriving Repr, DecidableEq

/-- `isTemporaryError`: whether the error is a temporary `net.Error`. -/
def isTemporaryError : NetErrKind → Bool
  | NetErrKind.temporary => true
  | NetErrKind.fatal => false

structure WriteStepOut where
  requeuedFromFreshTask : Bool
  loopContinues : Bool
  groupClosedWith : Option NetErrKind
deriving Repr, DecidableEq

/-- One `requestCh` iteration of `conn.writeLoop` (lines 630-651):
`NextWriter`, then `writeRequestAndClose`. On an error at either point the
loop spawns `go c.requeueRequest(req)` and then continues when the error is
temporary or returns when it is fatal. The loop never calls `wp.Close`
itself; on exit it only sends a GoingAway close frame (deferred
`tryCloseConnection`). -/
def conn.writeLoopIteration (nextWriterErr : Option NetErrKind)
    (writeErr : Option NetErrKind) : WriteStepOut :=
  match nextWriterErr with
  | some e =>
    { requeuedFromFreshTask := true, loopContinues := isTemporaryError e, groupClosedWith := none }
  | none =>
    match writeErr with
    | some e =>
      { requeuedFromFreshTask := true, loopContinues := isTemporaryError e, groupClosedWith := none }
    | none =>
      { requeuedFromFreshTask := false, loopContinues := true, groupClosedWith := none }

/-- `conn.requeueRequest` (lines 591-599), run from the fresh task: bail when
the connection's worker group is closing, otherwise send the request back on
the shared `requestCh`. Returns whether the request was re-queued. -/
def conn.requeueRequestOp (closing : Bool) : Bool := !closing

/-- C3 counterexample: a fatal (non-temporary) error while emitting a frame.
The code spawns the re-queue task anyway (`go c.requeueRequest(req)` runs
before the temporary check) and exits the loop without closing the worker
group with the error — refuting the claim that on fatal errors the request
is not re-queued and the group is closed with the error. -/
theorem C3_fatal_error_counterexample :
    conn.writeLoopIteration none (some NetErrKind.fatal) =
      { requeuedFromFreshTask := true, loopContinues := false, groupClosedWith := none } ∧
    conn.writeLoopIteration (some NetErrKind.fatal) none =
      { requeuedFromFreshTask := true, loopContinues := false, groupClosedWith := none } := by
  decide

/-- C3 amended: on ANY frame-emission error (temporary or fatal, at
`NextWriter` or while writing) the request is re-queued from a fresh task —
the task sends on `requestCh` unless the group is already closing; on a
temporary error the loop continues, on a fatal error the loop terminates,
and in no case does the writer loop itself close the worker group with the
error. -/
theorem C3_writer_loop_error_handling :
    conn.writeLoopIteration (some NetErrKind.temporary) none =
      { requeuedFromFreshTask := true, loopContinues := true, groupClosedWith := none } ∧
    conn.writeLoopIteration none (some NetErrKind.temporary) =
      { requeuedFromFreshTask := true, loopContinues := true, groupClosedWith := none } ∧
    conn.writeLoopIteration (some NetErrKind.fatal) none =
      { requeuedFromFreshTask := true, loopContinues := false, groupClosedWith := none } ∧
    conn.writeLoopIteration none (some NetErrKind.fatal) =
      { requeuedFromFreshTask := true, loopContinues := false, groupClosedWith := none } ∧
    conn.writeLoopIteration none none =
      { requeuedFromFreshTask := false, loopContinues := true, groupClosedWith := none } ∧
    conn.requeueRequestOp false = true ∧
    conn.requeueRequestOp true = false := by
  decide

/-! ## Tunnel client dispatcher (tunnel/websocket/client.go, lines 131-163) -/

structure ClientResponse where
  statusCode : Nat
  body : String
deriving Repr, DecidableEq

/-- `http.StatusServiceUnavailable`. -/
def StatusServiceUnavailable : Nat := 503

inductive RTOutcome where
  | ok (resp : ClientResponse)
  | err (msg : String)
deriving Repr, DecidableEq

structure HandleRequestOut where
  enqueued : Option (requestID × ClientResponse)
  tunnelClosed : Bool
deriving Repr, DecidableEq

/-- `client.handleRequest`: run the user round tripper; on error, synthesize
a `503 Service Unavailable` response whose body is the error text; then
enqueue the response item (same request id) on `responseCh` unless the
worker group is closing. The handler never closes the worker group for a
round-trip error. -/
def client.handleRequestOp (reqID : requestID) (outcome : RTOutcome) (closing : Bool) :
    HandleRequestOut :=
  let resp : ClientResponse :=
    match outcome with
    | RTOutcome.ok r => r
    | RTOutcome.err e => { statusCode := StatusServiceUnavailable, body := e }
  if closing then { enqueued := none, tunnelClosed := false }
  else { enqueued := some (reqID, resp), tunnelClosed := false }

/-- C6: whenever the user-supplied round tripper fails, the dispatcher
enqueues — for the same request id — a synthesized response with status
`503 Service Unavailable` and a body equal to the error text, and does not
terminate the tunnel connection. -/
theorem C6_roundtrip_error_synthesizes_503 (reqID : requestID) (e : String) :
    client.handleRequestOp reqID (RTOutcome.err e) false =
      { enqueued := some (reqID, { statusCode := 503, body := e }), tunnelClosed := false } := by
  rfl

/-! ## Frame codec (server file lines 722-728, client.go lines 311-325)

The repository's own contribution to the wire format is the 8-byte
little-endian request-id prefix (`binary.Write` / `binary.Read`); the HTTP
message after it is produced and consumed by Go's net/http. -/

def CR : Nat := 13
def LF : Nat := 10
def COLON : Nat := 58
def SP : Nat := 32

/-- Modelled from the spec: the HTTP/1.1 on-wire message form written after
the request id comes from Go's net/http (`Request.Write`,
`Response.Write`, `http.ReadRequest`, `http.ReadResponse`), which is not
part of this repository. Following the spec (start-line, header lines,
CRLF, body), an HTTP message is a start line, a header list and a body of
bytes. -/
structure HTTPMessage where
  startLine : List Nat
  headers : List (List Nat × List Nat)
  body : List Nat
deriving Repr, DecidableEq

/-- Modelled from the spec: one header line per header, `key: value` then
CRLF. -/
def serializeHeaders : List (List Nat × List Nat) → List Nat
  | [] => []
  | (k, v) :: hs => k ++ COLON :: SP :: (v ++ CR :: LF :: serializeHeaders hs)

/-- Modelled from the spec: start line, CRLF, header lines, empty line,
body. -/
def serializeMessage (m : HTTPMessage) : List Nat :=
  m.startLine ++ CR :: LF :: (serializeHeaders m.headers ++ CR :: LF :: m.body)

/-- Read one CRLF-terminated line: the bytes before the first CRLF and the
remainder after it. -/
def takeLine : List Nat → Option (List Nat × List Nat)
  | [] => none
  | b :: rest =>
    if b = CR ∧ rest.head? = some LF then some ([], rest.tail)
    else
      match takeLine rest with
      | none => none
      | some (l, r) => some (b :: l, r)

/-- Split a header line at the first colon. -/
def splitColon : List Nat → Option (List Nat × List Nat)
  | [] => none
  | b :: rest =>
    if b = COLON then some ([], rest)
    else
      match splitColon rest with
      | none => none
      | some (k, v) => some (b :: k, v)

/-- Parse a header line: split at the first colon, dropping the single
optional space after it. -/
def parseHeaderLine (l : List Nat) : Option (List Nat × List Nat) :=
  (splitColon l).map (fun kv => (kv.1, if kv.2.head? = some SP then kv.2.tail else kv.2))

/-- Parse header lines until the empty line; the remainder is the body.
`fuel` bounds the recursion by the input length. -/
def parseHeadersAux : Nat → List Nat → Option (List (List Nat × List Nat) × List Nat)
  | 0, _ => none
  | fuel + 1, bs =>
    (takeLine bs).bind (fun lr =>
      if lr.1 = [] then some ([], lr.2)
      else
        (parseHeaderLine lr.1).bind (fun h =>
          (parseHeadersAux fuel lr.2).map (fun hsbody => (h :: hsbody.1, hsbody.2))))

/-- Modelled from the spec: parse an HTTP/1.1 message with the standard
grammar — start line, header lines up to the empty line, then the body
(read to the end of the frame, the writer having been closed). -/
def parseMessage (bs : List Nat) : Option HTTPMessage :=
  (takeLine bs).bind (fun slrest =>
    (parseHeadersAux (slrest.2.length + 1) slrest.2).map
      (fun hsbody => HTTPMessage.mk slrest.1 hsbody.1 hsbody.2))

/-- A well-formed message: no CR inside the start line, header keys or
header values, and no colon inside header keys. -/
def messageOK (m : HTTPMessage) : Prop :=
  CR ∉ m.startLine ∧ ∀ p ∈ m.headers, COLON ∉ p.1 ∧ CR ∉ p.1 ∧ CR ∉ p.2

theorem takeLine_append (l rest : List Nat) (h : CR ∉ l) :
    takeLine (l ++ CR :: LF :: rest) = some (l, rest) := by
  induction l with
  | nil => simp [takeLine]
  | cons b l ih =>
    have hb : b ≠ CR := fun hbe => h (hbe ▸ List.mem_cons_self b l)
    have hl : CR ∉ l := fun hm => h (List.mem_cons_of_mem b hm)
    simp only [List.cons_append, takeLine]
    rw [if_neg (by simp [hb])]
    simp only [List.append_eq]
    rw [ih hl]

theorem splitColon_append (k w : List Nat) (h : COLON ∉ k) :
    splitColon (k ++ COLON :: w) = some (k, w) := by
  induction k with
  | nil => simp [splitColon]
  | cons b k ih =>
    have hb : b ≠ COLON := fun hbe => h (hbe ▸ List.mem_cons_self b k)
    have hk : COLON ∉ k := fun hm => h (List.mem_cons_of_mem b hm)
    simp only [List.cons_append, splitColon]
    rw [if_neg hb]
    simp only [List.append_eq]
    rw [ih hk]

theorem parseHeaderLine_append (k v : List Nat) (h : COLON ∉ k) :
    parseHeaderLine (k ++ COLON :: SP :: v) = some (k, v) := by
  rw [parseHeaderLine, splitColon_append k (SP :: v) h]
  simp

theorem parseHeadersAux_serialize (hs : List (List Nat × List Nat)) (body : List Nat)
    (fuel : Nat) (hwf : ∀ p ∈ hs, COLON ∉ p.1 ∧ CR ∉ p.1 ∧ CR ∉ p.2)
    (hfuel : hs.length < fuel) :
    parseHeadersAux fuel (serializeHeaders hs ++ CR :: LF :: body) = some (hs, body) := by
  induction hs generalizing fuel with
  | nil =>
    obtain ⟨f, rfl⟩ : ∃ f, fuel = f + 1 := ⟨fuel - 1, by omega⟩
    simp [serializeHeaders, parseHeadersAux, takeLine]
  | cons p hs ih =>
    obtain ⟨f, rfl⟩ : ∃ f, fuel = f + 1 := ⟨fuel - 1, by omega⟩
    obtain ⟨k, v⟩ := p
    have hk : COLON ∉ k := (hwf (k, v) (by simp)).1
    have hck : CR ∉ k := (hwf (k, v) (by simp)).2.1
    have hcv : CR ∉ v := (hwf (k, v) (by simp)).2.2
    have hline : CR ∉ (k ++ COLON :: SP :: v) := by
      simp only [List.mem_append, List.mem_cons]
      push_neg
      exact ⟨hck, by decide, by decide, hcv⟩
    have heq : serializeHeaders ((k, v) :: hs) ++ CR :: LF :: body =
        (k ++ COLON :: SP :: v) ++ CR :: LF :: (serializeHeaders hs ++ CR :: LF :: body) := by
      simp [serializeHeaders]
    have hne : (k ++ COLON :: SP :: v) ≠ [] := by simp
    rw [heq, parseHeadersAux, takeLine_append _ _ hline]
    simp only [Option.some_bind, hne, if_false, parseHeaderLine_append k v hk]
    have hf2 : hs.length < f := by
      simp only [List.length_cons] at hfuel
      omega
    rw [ih f (fun p hp => hwf p (List.mem_cons_of_mem _ hp)) hf2]
    simp

theorem serializeHeaders_length (hs : List (List Nat × List Nat)) :
    hs.length ≤ (serializeHeaders hs).length := by
  induction hs with
  | nil => simp [serializeHeaders]
  | cons p hs ih =>
    obtain ⟨k, v⟩ := p
    simp only [serializeHeaders, List.length_append, List.length_cons]
    omega

theorem parseMessage_serializeMessage (m : HTTPMessage) (h : messageOK m) :
    parseMessage (serializeMessage m) = some m := by
  obtain ⟨sl, hs, body⟩ := m
  obtain ⟨hsl, hh⟩ := h
  rw [serializeMessage, parseMessage,
    takeLine_append sl (serializeHeaders hs ++ CR :: LF :: body) hsl]
  have hfuel : hs.length < (serializeHeaders hs ++ CR :: LF :: body).length + 1 := by
    have := serializeHeaders_length hs
    simp only [List.length_append, List.length_cons]
    omega
  simp only [Option.some_bind]
  rw [parseHeadersAux_serialize hs body _ hh hfuel]
  simp

/-- `writeRequestAndClose` / `writeResponseAndClose` (server file lines
722-728, client.go lines 319-325): write the 8-byte little-endian request
id, then the HTTP message wire form, then close the writer — the finished
frame is exactly the bytes written. -/
def writeRequestAndClose (id : requestID) (m : HTTPMessage) : List Nat :=
  leEncode 8 id ++ serializeMessage m

/-- `readRequest` (client.go lines 311-317; the server reader's
`binary.Read` + `http.ReadResponse` has the same shape): read the 8-byte
little-endian request id, then parse the remainder with the HTTP/1.1
grammar; a payload shorter than 8 bytes is a deserialization failure. -/
def readRequest (bs : List Nat) : Option (requestID × HTTPMessage) :=
  (le64decode bs).bind (fun idrest =>
    (parseMessage idrest.2).map (fun m => (idrest.1, m)))

/-- C5: frame codec round trip — serializing a frame (8-byte little-endian
request id, then the HTTP/1.1 wire form of the message, then closing the
writer) and parsing it back yields the original request id and the original
message; and parsing any payload shorter than 8 bytes fails. -/
theorem C5_frame_codec_roundtrip (id : requestID) (m : HTTPMessage)
    (hid : id < 2 ^ 64) (hm : messageOK m)
    (short : List Nat) (hshort : short.length < 8) :
    readRequest (writeRequestAndClose id m) = some (id, m) ∧ readRequest short = none := by
  constructor
  · rw [writeRequestAndClose, readRequest, le64decode_leEncode id hid (serializeMessage m)]
    simp [parseMessage_serializeMessage m hm]
  · rw [readRequest, le64decode, if_pos hshort]
    rfl

theorem C5_frame_codec_roundtrip_witness :
    readRequest (writeRequestAndClose 3 (HTTPMessage.mk [71] [([72], [86])] [1, 2])) =
      some (3, HTTPMessage.mk [71] [([72], [86])] [1, 2]) ∧
    readRequest [7] = none :=
  C5_frame_codec_roundtrip 3 (HTTPMessage.mk [71] [([72], [86])] [1, 2]) (by decide)
    (by constructor
        · decide
        · decide)
    [7] (by decide)
